import Mathlib

/-!
Verification of the content-addressed object writer (`objectWriter` in
`repo/object/object_writer.go`).

The embedding is shallow: the writer's mutable state becomes a structure that is
threaded explicitly, the external collaborators (splitter, content manager,
buffer pool) become a `Config` of pure state-passing functions, and the side
effects on the buffer pool and the splitter are recorded in an event log so that
allocation sizes and close/release calls are observable.  Machine `int64`
counters only ever grow by list lengths, so they are modelled as `Nat`.
-/

set_option autoImplicit false

/-- Content identifiers are opaque printable tokens assigned by the content manager. -/
abbrev ContentID := String

/-- Object identifiers; in the source `type ID string`, so the zero value is `""`. -/
abbrev ID := String

/-- Modelled from the spec: the ObjectID constructors live in a codec file that is
not among the sources (only this writer calls them).  Spec section 6 gives the
normative textual scheme: Direct is the ContentID text itself, Compressed-direct
is `Z` followed by the direct form, Indirect is `I` followed by the inner
ObjectID. -/
def DirectObjectID (contentID : ContentID) : ID := contentID

/-- Modelled from the spec: Compressed-direct variant, `Z<Direct>`. -/
def Compressed (oid : ID) : ID := "Z" ++ oid

/-- Modelled from the spec: Indirect variant, `I<ObjectID>`. -/
def IndirectObjectID (oid : ID) : ID := "I" ++ oid

/-- One entry of the indirect index (`indirectObjectEntry`); the Go zero value of
the struct is `start = 0, length = 0, object = ""`, which is `default` here. -/
structure IndirectObjectEntry where
  start : Nat
  length : Nat
  object : ID
deriving DecidableEq, Inhabited

/-- The indirect index document (`indirectObject`): a stream sentinel plus the entries. -/
structure IndirectObject where
  streamID : String
  entries : List IndirectObjectEntry
deriving DecidableEq

/-- Observable effects on the buffer pool and the splitter. -/
inductive Event where
  | alloc (size : Nat)
  | release
  | splitterClose
deriving DecidableEq, Inhabited

/-- External world threaded through the writer: the content manager's state and
the log of pool/splitter events. -/
structure Env (κ : Type) where
  cmState : κ
  events : List Event

/-- A compressor consumes the input bytes and produces output bytes (written into
the caller-provided output buffer) or fails. -/
abbrev Compressor (ε : Type) := List Nat → Except ε (List Nat)

/-- The collaborators fixed at writer construction: the splitter kind (a state
type `σ` with a transition `shouldSplit`, consulted once per byte), the
splitter's maximum segment size, a fresh splitter state for nested writers
(`om.newSplitter()`), and the content manager (`contentMgr.WriteContent`),
stateful over `κ` and failing with `ε`. -/
structure Config (σ κ ε : Type) where
  shouldSplit : σ → Nat → Bool × σ
  maxSegmentSize : Nat
  freshSplitter : σ
  writeContent : κ → List Nat → ContentID → Except ε ContentID × κ

/-- The writer state (`objectWriter`).  `pfx` is the Go field `prefix`.
`buffer` is the accumulation buffer's contents; the pool buffer backing it is
tracked only through the event log.  The splitter is always non-nil for writers
built by the manager, so its state is carried directly. -/
structure objectWriter (σ ε : Type) where
  compressor : Option (Compressor ε)
  pfx : ContentID
  buffer : List Nat
  totalLength : Nat
  currentPosition : Nat
  indirectIndex : List IndirectObjectEntry
  description : String
  splitterState : σ

/-- Errors produced by `flushBuffer`: either the compression wrap
("unable to prepare content bytes") or the content-manager wrap
("error when flushing chunk %d of %s"). -/
inductive WErr (ε : Type) where
  | prep (e : ε)
  | flush (chunkID : Nat) (description : String) (e : ε)
deriving DecidableEq

/-- Errors produced by `Result`: a failed flush (returned unwrapped), the wrap
"unable to write indirect object index" around a failed index write, or fuel
exhaustion of the bounded recursion (never hit at sufficient fuel). -/
inductive ResultErr (ε : Type) where
  | flushFailed (e : WErr ε)
  | indexWrite (e : WErr ε)
  | outOfFuel
deriving DecidableEq

variable {σ κ ε : Type}

/-- `maybeCompressedContentBytes`: run the compressor when configured and keep
its output only when strictly shorter than the input. -/
def maybeCompressedContentBytes (comp : Option (Compressor ε)) (input : List Nat) :
    Except ε (List Nat × Bool) :=
  match comp with
  | some c =>
    match c input with
    | Except.error e => Except.error e
    | Except.ok output =>
      if output.length < input.length then Except.ok (output, true)
      else Except.ok (input, false)
  | none => Except.ok (input, false)

/-- `objectWriter.flushBuffer`: append a placeholder entry for the current
accumulation buffer, allocate the compression output buffer from the pool at the
chunk length (the allocation size is recorded as an event; `defer b.Release()`
appends the matching release on every exit path), prepare the content bytes,
write them through the content manager (resetting the accumulation buffer
whether or not the write succeeded), and on success record the entry's object
identifier, wrapped as compressed when the compressor output was kept. -/
def objectWriter.flushBuffer (cfg : Config σ κ ε) (w : objectWriter σ ε) (env : Env κ) :
    Option (WErr ε) × objectWriter σ ε × Env κ :=
  let length := w.buffer.length
  let chunkID := w.indirectIndex.length
  let start := w.currentPosition
  let w₁ : objectWriter σ ε :=
    { w with
      indirectIndex := w.indirectIndex ++ [{ start := start, length := length, object := "" }]
      currentPosition := start + length }
  let env₁ : Env κ := { env with events := env.events ++ [Event.alloc length] }
  match maybeCompressedContentBytes w₁.compressor w₁.buffer with
  | Except.error e =>
    (some (WErr.prep e), w₁, { env₁ with events := env₁.events ++ [Event.release] })
  | Except.ok (contentBytes, isCompressed) =>
    let cm := cfg.writeContent env₁.cmState contentBytes w₁.pfx
    let w₂ : objectWriter σ ε := { w₁ with buffer := [] }
    let env₂ : Env κ := { env₁ with cmState := cm.2 }
    match cm.1 with
    | Except.error e =>
      (some (WErr.flush chunkID w₂.description e), w₂,
        { env₂ with events := env₂.events ++ [Event.release] })
    | Except.ok contentID =>
      let oid := DirectObjectID contentID
      let oid := if isCompressed then Compressed oid else oid
      (none,
        { w₂ with
          indirectIndex :=
            w₂.indirectIndex.set chunkID { start := start, length := length, object := oid } },
        { env₂ with events := env₂.events ++ [Event.release] })

/-- The per-byte loop of `objectWriter.Write`: append the byte to the
accumulation buffer, consult the splitter, and flush when it says to split.
`bytes.Buffer.WriteByte` never returns an error, so only flushes can fail. -/
def objectWriter.writeLoop (cfg : Config σ κ ε) :
    objectWriter σ ε → Env κ → List Nat → Option (WErr ε) × objectWriter σ ε × Env κ
  | w, env, [] => (none, w, env)
  | w, env, d :: rest =>
    let wa : objectWriter σ ε := { w with buffer := w.buffer ++ [d] }
    let sp := cfg.shouldSplit wa.splitterState d
    let wb : objectWriter σ ε := { wa with splitterState := sp.2 }
    if sp.1 then
      match objectWriter.flushBuffer cfg wb env with
      | (some e, w', env') => (some e, w', env')
      | (none, w', env') => objectWriter.writeLoop cfg w' env' rest
    else
      objectWriter.writeLoop cfg wb env rest

/-- `objectWriter.Write`: advance `totalLength` by the whole slice length up
front, then run the per-byte loop; on success return the slice length, on a
failed flush return a byte count of 0 together with the error. -/
def objectWriter.Write (cfg : Config σ κ ε) (w : objectWriter σ ε) (env : Env κ)
    (data : List Nat) : (Nat × Option (WErr ε)) × objectWriter σ ε × Env κ :=
  let dataLen := data.length
  let w₀ : objectWriter σ ε := { w with totalLength := w.totalLength + dataLen }
  match objectWriter.writeLoop cfg w₀ env data with
  | (some e, w', env') => ((0, some e), w', env')
  | (none, w', env') => ((dataLen, none), w', env')

/-- `objectWriter.Close`: release the pool buffer and close the splitter (the
nil check on the splitter is always true for writers built by the manager); the
Go function always returns nil and does not change any writer field, so only the
event log changes — a second call repeats both effects. -/
def objectWriter.Close (w : objectWriter σ ε) (env : Env κ) : Env κ :=
  { env with events := env.events ++ [Event.release, Event.splitterClose] }

/-- Modelled from the spec: JSON encoding of one index entry with the on-disk
field names `s`, `l`, `o` (the tagged struct declaration is not among the
sources; spec section 6 fixes the field names). -/
def encodeEntry (e : IndirectObjectEntry) : String :=
  "\x7b\"s\":" ++ toString e.start ++ ",\"l\":" ++ toString e.length ++
    ",\"o\":\"" ++ e.object ++ "\"\x7d"

/-- Modelled from the spec: `json.NewEncoder(iw).Encode(ind)` marshals the
document with field names `stream` and `entries`, appends a newline, and issues
a single `Write` of the resulting bytes. -/
def encodeIndirectObject (ind : IndirectObject) : List Nat :=
  ("\x7b\"stream\":\"" ++ ind.streamID ++ "\",\"entries\":[" ++
      String.intercalate "," (ind.entries.map encodeEntry) ++ "]\x7d\n").toList.map Char.toNat

/-- `objectWriter.Result`: flush once more when the accumulation buffer is
non-empty or no chunk has been flushed yet; a single-entry index returns that
entry's object verbatim; otherwise the index document is written through a
nested writer (no compressor, same `pfx`, fresh splitter, allocation at
`maxSegmentSize` from `initBuffer`) whose `Close` runs on every return path
(the `defer`).  The nested recursion is bounded by `fuel`; `fuel` only limits
the recursion depth and is irrelevant at sufficient size. -/
def objectWriter.Result (cfg : Config σ κ ε) (fuel : Nat) (w : objectWriter σ ε)
    (env : Env κ) : Except (ResultErr ε) ID × objectWriter σ ε × Env κ :=
  match (if 0 < w.buffer.length ∨ w.indirectIndex.length = 0
         then objectWriter.flushBuffer cfg w env
         else (none, w, env)) with
  | (some e, w₁, env₁) => (Except.error (ResultErr.flushFailed e), w₁, env₁)
  | (none, w₁, env₁) =>
    if w₁.indirectIndex.length = 1 then
      (Except.ok (w₁.indirectIndex.headD default).object, w₁, env₁)
    else
      match fuel with
      | 0 => (Except.error ResultErr.outOfFuel, w₁, env₁)
      | fuel' + 1 =>
        let iw : objectWriter σ ε :=
          { compressor := none
            pfx := w₁.pfx
            buffer := []
            totalLength := 0
            currentPosition := 0
            indirectIndex := []
            description := "LIST(" ++ w₁.description ++ ")"
            splitterState := cfg.freshSplitter }
        let env₂ : Env κ := { env₁ with events := env₁.events ++ [Event.alloc cfg.maxSegmentSize] }
        let doc := encodeIndirectObject { streamID := "kopia:indirect", entries := w₁.indirectIndex }
        match objectWriter.Write cfg iw env₂ doc with
        | ((_, some e), iw₁, env₃) =>
          (Except.error (ResultErr.indexWrite e), w₁, objectWriter.Close iw₁ env₃)
        | ((_, none), iw₁, env₃) =>
          match objectWriter.Result cfg fuel' iw₁ env₃ with
          | (Except.error e, iw₂, env₄) => (Except.error e, w₁, objectWriter.Close iw₂ env₄)
          | (Except.ok oid, iw₂, env₄) =>
            (Except.ok (IndirectObjectID oid), w₁, objectWriter.Close iw₂ env₄)

/-- Run a sequence of `Write` calls, stopping at the first error. -/
def runWrites (cfg : Config σ κ ε) :
    List (List Nat) → objectWriter σ ε → Env κ → Option (WErr ε) × objectWriter σ ε × Env κ
  | [], w, env => (none, w, env)
  | d :: ds, w, env =>
    match objectWriter.Write cfg w env d with
    | ((_, some e), w', env') => (some e, w', env')
    | ((_, none), w', env') => runWrites cfg ds w' env'

/-- The entries cover the stream contiguously starting at `pos`: each entry
starts where the previous one ended, with no gaps or overlaps. -/
def entriesContiguous : Nat → List IndirectObjectEntry → Bool
  | _, [] => true
  | pos, e :: rest => (e.start == pos) && entriesContiguous (e.start + e.length) rest

/-- Total number of bytes covered by the entries. -/
def sumLengths (l : List IndirectObjectEntry) : Nat :=
  l.foldr (fun e acc => e.length + acc) 0

/-! Concrete collaborator instances used to evaluate the model at specific
inputs: splitters that never or always report a boundary, content managers that
always succeed, always fail, or fail exactly on their first call. -/

/-- A splitter that never reports a chunk boundary. -/
def splitNever : Unit → Nat → Bool × Unit := fun _ _ => (false, ())

/-- A splitter that reports a boundary after every byte. -/
def splitAlways : Unit → Nat → Bool × Unit := fun _ _ => (true, ())

/-- A content manager that deterministically succeeds, naming contents by length. -/
def cmOk : Unit → List Nat → ContentID → Except Unit ContentID × Unit :=
  fun k b _ => (Except.ok ("c" ++ toString b.length), k)

/-- A content manager that always fails. -/
def cmFail : Unit → List Nat → ContentID → Except Unit ContentID × Unit :=
  fun k _ _ => (Except.error (), k)

/-- A content manager that fails on its first call and succeeds afterwards. -/
def cmFailFirst : Nat → List Nat → ContentID → Except Unit ContentID × Nat :=
  fun k b _ => (if k = 0 then Except.error () else Except.ok ("c" ++ toString b.length), k + 1)

/-- Never-splitting, always-successful configuration. -/
def cfgOk : Config Unit Unit Unit :=
  { shouldSplit := splitNever, maxSegmentSize := 100, freshSplitter := (), writeContent := cmOk }

/-- Never-splitting configuration whose content manager always fails. -/
def cfgFail : Config Unit Unit Unit :=
  { shouldSplit := splitNever, maxSegmentSize := 100, freshSplitter := (), writeContent := cmFail }

/-- Always-splitting configuration whose content manager always fails. -/
def cfgFailSplit : Config Unit Unit Unit :=
  { shouldSplit := splitAlways, maxSegmentSize := 100, freshSplitter := (), writeContent := cmFail }

/-- Always-splitting configuration whose content manager fails exactly once. -/
def cfgFailOnce : Config Unit Nat Unit :=
  { shouldSplit := splitAlways, maxSegmentSize := 100, freshSplitter := (),
    writeContent := cmFailFirst }

/-- A freshly constructed writer: empty buffer, zero counters, empty index. -/
def wEmpty : objectWriter Unit Unit :=
  { compressor := none, pfx := "", buffer := [], totalLength := 0, currentPosition := 0,
    indirectIndex := [], description := "d", splitterState := () }

/-- A writer holding one unflushed byte. -/
def wBuf1 : objectWriter Unit Unit := { wEmpty with buffer := [1] }

/-- A writer holding three unflushed bytes. -/
def wBuf3 : objectWriter Unit Unit := { wEmpty with buffer := [1, 2, 3] }

/-- A writer configured with the identity compressor and two unflushed bytes:
the compressor output has exactly the input's length. -/
def wC4 : objectWriter Unit Unit :=
  { wEmpty with compressor := some (fun l => Except.ok l), buffer := [5, 6] }

/-- A writer with two flushed chunks and an empty accumulation buffer. -/
def wTwo : objectWriter Unit Unit :=
  { wEmpty with
    indirectIndex := [{ start := 0, length := 1, object := "a" },
                      { start := 1, length := 1, object := "b" }]
    currentPosition := 2
    totalLength := 2 }

/-- An environment with trivial manager state and an empty event log. -/
def envU : Env Unit := { cmState := (), events := [] }

/-- A second environment with a different (non-empty) event log. -/
def envU2 : Env Unit := { cmState := (), events := [Event.release] }

/-- An environment whose manager state is the call counter 0. -/
def envN : Env Nat := { cmState := 0, events := [] }

/-! Helper lemmas about lists and about `flushBuffer`. -/

theorem set_concat_at_length {α : Type} (l : List α) (a b : α) :
    (l ++ [a]).set l.length b = l ++ [b] := by
  induction l with
  | nil => rfl
  | cons x xs ih => simp [List.set, ih]

theorem getLastD_append_single {α : Type} (l : List α) (a d : α) :
    (l ++ [a]).getLastD d = a := by
  induction l with
  | nil => rfl
  | cons x xs ih =>
    cases xs with
    | nil => rfl
    | cons y ys => simpa using ih

theorem sumLengths_concat (l : List IndirectObjectEntry) (e : IndirectObjectEntry) :
    sumLengths (l ++ [e]) = sumLengths l + e.length := by
  induction l with
  | nil => simp [sumLengths]
  | cons x xs ih => simp [sumLengths] at ih ⊢; omega

theorem entriesContiguous_concat (l : List IndirectObjectEntry) (n : Nat) (o : ID) :
    ∀ q, entriesContiguous q l = true →
      entriesContiguous q (l ++ [{ start := q + sumLengths l, length := n, object := o }]) = true := by
  induction l with
  | nil => intro q _; simp [entriesContiguous, sumLengths]
  | cons e rest ih =>
    intro q h
    simp only [entriesContiguous, Bool.and_eq_true, beq_iff_eq] at h ⊢
    obtain ⟨hs, hrest⟩ := h
    refine ⟨hs, ?_⟩
    have := ih (e.start + e.length) hrest
    have harith : q + sumLengths (e :: rest) = e.start + e.length + sumLengths rest := by
      simp [sumLengths] at *
      omega
    rw [harith]
    simpa using this

/-- Successful flush: one entry is appended at the old cursor with the chunk's
length, the cursor advances by that length, the accumulation buffer is reset,
and every other field of the writer is unchanged. -/
theorem flushBuffer_ok_cases (cfg : Config σ κ ε) (w : objectWriter σ ε) (env : Env κ)
    (w' : objectWriter σ ε) (env' : Env κ)
    (h : objectWriter.flushBuffer cfg w env = (none, w', env')) :
    ∃ oid, w' = { w with
        buffer := []
        indirectIndex := w.indirectIndex ++
          [{ start := w.currentPosition, length := w.buffer.length, object := oid }]
        currentPosition := w.currentPosition + w.buffer.length } := by
  unfold objectWriter.flushBuffer at h
  dsimp only at h
  rcases hm : maybeCompressedContentBytes w.compressor w.buffer with e | ⟨cb, isC⟩ <;>
    rw [hm] at h
  · simp at h
  · dsimp only at h
    rcases hcm : cfg.writeContent env.cmState cb w.pfx with ⟨r, k2⟩
    rw [hcm] at h
    dsimp only at h
    rcases r with e | cid
    · simp at h
    · dsimp only at h
      refine ⟨if isC then Compressed (DirectObjectID cid) else DirectObjectID cid, ?_⟩
      have hw := congrArg Prod.snd h
      have hw1 := congrArg Prod.fst hw
      dsimp at hw1
      rw [← hw1, set_concat_at_length]

/-- A flush that failed in the content manager: the error carries the 0-based
chunk index and the description, the accumulation buffer is reset anyway, and
the appended placeholder entry keeps the zero-value object identifier. -/
theorem flushBuffer_cmErr_cases (cfg : Config σ κ ε) (w : objectWriter σ ε) (env : Env κ)
    (c : Nat) (d : String) (e : ε) (w' : objectWriter σ ε) (env' : Env κ)
    (h : objectWriter.flushBuffer cfg w env = (some (WErr.flush c d e), w', env')) :
    c = w.indirectIndex.length ∧ d = w.description ∧
    w' = { w with
        buffer := []
        indirectIndex := w.indirectIndex ++
          [{ start := w.currentPosition, length := w.buffer.length, object := "" }]
        currentPosition := w.currentPosition + w.buffer.length } := by
  unfold objectWriter.flushBuffer at h
  dsimp only at h
  rcases hm : maybeCompressedContentBytes w.compressor w.buffer with e0 | ⟨cb, isC⟩ <;>
    rw [hm] at h
  · simp only [Prod.mk.injEq, Option.some.injEq] at h
    exact absurd h.1 (by simp)
  · dsimp only at h
    rcases hcm : cfg.writeContent env.cmState cb w.pfx with ⟨r, k2⟩
    rw [hcm] at h
    dsimp only at h
    rcases r with e1 | cid
    · simp only [Prod.mk.injEq, Option.some.injEq, WErr.flush.injEq] at h
      obtain ⟨⟨hc, hd, _⟩, hw, _⟩ := h
      exact ⟨hc.symm, hd.symm, hw.symm⟩
    · simp at h

/-- Flushing never changes the total-length counter, whatever the outcome. -/
theorem flushBuffer_totalLength (cfg : Config σ κ ε) (w : objectWriter σ ε) (env : Env κ) :
    (objectWriter.flushBuffer cfg w env).2.1.totalLength = w.totalLength := by
  unfold objectWriter.flushBuffer
  dsimp only
  rcases maybeCompressedContentBytes w.compressor w.buffer with e | ⟨cb, isC⟩
  · rfl
  · dsimp only
    rcases cfg.writeContent env.cmState cb w.pfx with ⟨r, k2⟩
    rcases r with e | cid <;> rfl

/-- The per-byte loop never changes the total-length counter. -/
theorem writeLoop_totalLength (cfg : Config σ κ ε) :
    ∀ (data : List Nat) (w : objectWriter σ ε) (env : Env κ),
      (objectWriter.writeLoop cfg w env data).2.1.totalLength = w.totalLength := by
  intro data
  induction data with
  | nil => intro w env; rfl
  | cons d rest ih =>
    intro w env
    unfold objectWriter.writeLoop
    dsimp only
    split
    · split
      next e w' env' heq =>
        have htl := congrArg (fun p => p.2.1.totalLength) heq
        dsimp only at htl
        rw [flushBuffer_totalLength] at htl
        exact htl.symm
      next w' env' heq =>
        have htl := congrArg (fun p => p.2.1.totalLength) heq
        dsimp only at htl
        rw [flushBuffer_totalLength] at htl
        rw [ih w' env']
        exact htl.symm
    · exact ih _ env

/-- C5 (amended): during every chunk flush, the compression-output buffer is
allocated from the pool at the current chunk's length (the accumulation
buffer's byte count), not at `maxSegmentSize`; the matching release follows on
every exit path. -/
theorem flush_alloc_chunk_length (cfg : Config σ κ ε) (w : objectWriter σ ε) (env : Env κ) :
    (objectWriter.flushBuffer cfg w env).2.2.events =
      env.events ++ [Event.alloc w.buffer.length, Event.release] := by
  unfold objectWriter.flushBuffer
  dsimp only
  rcases maybeCompressedContentBytes w.compressor w.buffer with e | ⟨cb, isC⟩
  · simp
  · dsimp only
    rcases cfg.writeContent env.cmState cb w.pfx with ⟨r, k2⟩
    rcases r with e | cid <;> simp

/-- C5 counterexample: flushing a 3-byte chunk under a configuration whose
splitter has `maxSegmentSize = 100` allocates the compression-output buffer at
size 3, not at `maxSegmentSize`. -/
theorem flush_alloc_not_max_segment_cex :
    (objectWriter.flushBuffer cfgOk wBuf3 envU).2.2.events = [Event.alloc 3, Event.release] ∧
    cfgOk.maxSegmentSize = 100 ∧ (3 : Nat) ≠ 100 := by
  refine ⟨rfl, rfl, by decide⟩

/-- C8 (amended): `Close` always returns nil and leaves the writer fields
untouched, but it is not guarded: every call — including a second call on an
already-closed writer — releases the pool buffer and closes the splitter again,
so double-close repeats both effects instead of being a no-op. -/
theorem close_repeats_effects (w w₂ : objectWriter σ ε) (env : Env κ) :
    (objectWriter.Close w env).events = env.events ++ [Event.release, Event.splitterClose] ∧
    (objectWriter.Close w₂ (objectWriter.Close w env)).events =
      env.events ++ [Event.release, Event.splitterClose, Event.release, Event.splitterClose] := by
  constructor <;> simp [objectWriter.Close]

/-- C8 counterexample: calling `Close` twice is observably different from
calling it once — the buffer release and the splitter close are both issued a
second time. -/
theorem close_double_not_noop_cex :
    (objectWriter.Close wEmpty (objectWriter.Close wEmpty envU)).events ≠
      (objectWriter.Close wEmpty envU).events := by
  decide

/-- C9: `Write` advances the writer's total-length counter by the full slice
length up front, before any byte is appended — so the counter is advanced by
the whole slice even when a chunk flush fails partway through — and on such an
error `Write` reports a byte count of 0 together with the error. -/
theorem write_total_length_and_zero_on_error (cfg : Config σ κ ε) (w : objectWriter σ ε)
    (env : Env κ) (data : List Nat) :
    (objectWriter.Write cfg w env data).2.1.totalLength = w.totalLength + data.length ∧
    (∀ e, (objectWriter.Write cfg w env data).1.2 = some e →
        (objectWriter.Write cfg w env data).1.1 = 0) := by
  unfold objectWriter.Write
  dsimp only
  rcases hl : objectWriter.writeLoop cfg { w with totalLength := w.totalLength + data.length }
      env data with ⟨err, wl, envl⟩
  have htl := writeLoop_totalLength cfg data
    { w with totalLength := w.totalLength + data.length } env
  rw [hl] at htl
  rcases err with _ | e
  · exact ⟨htl, by intro e h; simp at h⟩
  · exact ⟨htl, by intro e h; rfl⟩

/-- C9 witness: a write of two bytes through an always-splitting configuration
whose content manager fails; the counter advanced by 2, the call returned 0. -/
theorem write_total_length_and_zero_on_error_witness :
    (objectWriter.Write cfgFailSplit wEmpty envU [7, 8]).2.1.totalLength = 2 ∧
    (objectWriter.Write cfgFailSplit wEmpty envU [7, 8]).1.1 = 0 :=
  have h := write_total_length_and_zero_on_error cfgFailSplit wEmpty envU [7, 8]
  ⟨h.1, h.2 (WErr.flush 0 "d" ()) rfl⟩

/-- C10: when a chunk flush fails with a content-manager error, the
accumulation buffer is reset anyway and the placeholder entry keeps the
zero-value object identifier; `Result` on a writer whose index then holds
exactly that single failed entry skips re-flushing and returns the empty
ObjectID with no error. -/
theorem failed_flush_clean_state_result (cfg : Config σ κ ε) (w : objectWriter σ ε)
    (env : Env κ) (c : Nat) (d : String) (e : ε) (w' : objectWriter σ ε) (env' : Env κ)
    (fuel : Nat)
    (h : objectWriter.flushBuffer cfg w env = (some (WErr.flush c d e), w', env')) :
    w'.buffer = [] ∧
    w'.indirectIndex = w.indirectIndex ++
      [{ start := w.currentPosition, length := w.buffer.length, object := "" }] ∧
    (w.indirectIndex = [] →
        objectWriter.Result cfg fuel w' env' = (Except.ok "", w', env')) := by
  obtain ⟨-, -, hw⟩ := flushBuffer_cmErr_cases cfg w env c d e w' env' h
  subst hw
  refine ⟨rfl, rfl, ?_⟩
  intro hi
  unfold objectWriter.Result
  rw [hi]
  dsimp only
  rfl

/-- C10 witness: a failing flush of a one-byte chunk on a fresh writer, then
`Result`: the buffer is reset and `Result` returns the empty ObjectID with no
error. -/
theorem failed_flush_clean_state_result_witness :
    (objectWriter.flushBuffer cfgFail wBuf1 envU).2.1.buffer = [] ∧
    objectWriter.Result cfgFail 0 (objectWriter.flushBuffer cfgFail wBuf1 envU).2.1
        (objectWriter.flushBuffer cfgFail wBuf1 envU).2.2 =
      (Except.ok "", (objectWriter.flushBuffer cfgFail wBuf1 envU).2.1,
        (objectWriter.flushBuffer cfgFail wBuf1 envU).2.2) :=
  have h := failed_flush_clean_state_result cfgFail wBuf1 envU 0 "d" ()
    (objectWriter.flushBuffer cfgFail wBuf1 envU).2.1
    (objectWriter.flushBuffer cfgFail wBuf1 envU).2.2 0 rfl
  ⟨h.1, h.2.2 rfl⟩

/-- Flushing never changes the configured compressor, whatever the outcome. -/
theorem flushBuffer_compressor (cfg : Config σ κ ε) (w : objectWriter σ ε) (env : Env κ) :
    (objectWriter.flushBuffer cfg w env).2.1.compressor = w.compressor := by
  unfold objectWriter.flushBuffer
  dsimp only
  rcases maybeCompressedContentBytes w.compressor w.buffer with e | ⟨cb, isC⟩
  · rfl
  · dsimp only
    rcases cfg.writeContent env.cmState cb w.pfx with ⟨r, k2⟩
    rcases r with e | cid <;> rfl

/-- With no compressor and a content manager that succeeds on every call, a
flush cannot fail, and the resulting writer still has no compressor. -/
theorem flushBuffer_ok_of_benign (cfg : Config σ κ ε)
    (hCM : ∀ k b p, ∃ cid k', cfg.writeContent k b p = (Except.ok cid, k'))
    (w : objectWriter σ ε) (hcomp : w.compressor = none) (env : Env κ) :
    (objectWriter.flushBuffer cfg w env).1 = none ∧
    (objectWriter.flushBuffer cfg w env).2.1.compressor = none := by
  refine ⟨?_, (flushBuffer_compressor cfg w env).trans hcomp⟩
  unfold objectWriter.flushBuffer
  dsimp only
  rw [hcomp]
  simp only [maybeCompressedContentBytes]
  obtain ⟨cid, k', hk⟩ := hCM env.cmState w.buffer w.pfx
  rw [hk]

/-- With no compressor and an always-successful content manager, the per-byte
loop never fails and preserves the absent compressor. -/
theorem writeLoop_ok_of_benign (cfg : Config σ κ ε)
    (hCM : ∀ k b p, ∃ cid k', cfg.writeContent k b p = (Except.ok cid, k')) :
    ∀ (data : List Nat) (w : objectWriter σ ε) (env : Env κ), w.compressor = none →
      (objectWriter.writeLoop cfg w env data).1 = none ∧
      (objectWriter.writeLoop cfg w env data).2.1.compressor = none := by
  intro data
  induction data with
  | nil => intro w env hc; exact ⟨rfl, hc⟩
  | cons d rest ih =>
    intro w env hc
    unfold objectWriter.writeLoop
    dsimp only
    have hok := flushBuffer_ok_of_benign cfg hCM
      (⟨w.compressor, w.pfx, w.buffer ++ [d], w.totalLength, w.currentPosition,
        w.indirectIndex, w.description, (cfg.shouldSplit w.splitterState d).2⟩ :
        objectWriter σ ε) hc env
    split
    · split
      next e w' env' heq =>
        rw [heq] at hok
        simp at hok
      next w' env' heq =>
        rw [heq] at hok
        simp only [Prod.fst, Prod.snd] at hok
        exact ih w' env' hok.2
    · exact ih _ env hc

/-- C1 (amended): a content-manager error during a chunk flush is returned from
the `Write` call that triggered it, but the writer is not poisoned — no record
of the error is kept in the writer, so a later `Write` (here: on a writer with
no compressor, with a content manager whose calls all succeed) accepts the full
slice and returns no error. -/
theorem write_succeeds_after_prior_flush_failure (cfg : Config σ κ ε)
    (hCM : ∀ k b p, ∃ cid k', cfg.writeContent k b p = (Except.ok cid, k'))
    (w : objectWriter σ ε) (hcomp : w.compressor = none) (env : Env κ) (data : List Nat) :
    (objectWriter.Write cfg w env data).1 = (data.length, none) := by
  unfold objectWriter.Write
  dsimp only
  have hl := writeLoop_ok_of_benign cfg hCM data
    { w with totalLength := w.totalLength + data.length } env hcomp
  rcases hloop : objectWriter.writeLoop cfg
      { w with totalLength := w.totalLength + data.length } env data with ⟨err, wl, envl⟩
  rw [hloop] at hl
  rcases err with _ | e
  · rfl
  · exact absurd hl.1 (by simp)

/-- C1 witness: an always-successful content manager lets a compressor-less
writer accept a two-byte slice in full. -/
theorem write_succeeds_after_prior_flush_failure_witness :
    (objectWriter.Write cfgOk wEmpty envU [1, 2]).1 = (2, none) :=
  write_succeeds_after_prior_flush_failure cfgOk
    (fun k b _ => ⟨"c" ++ toString b.length, k, rfl⟩) wEmpty rfl envU [1, 2]

/-- C1 counterexample: under a content manager that fails exactly on its first
call, the first `Write` (which flushes) fails, but the very next `Write` on the
same writer succeeds — the writer is not poisoned and does not re-surface the
first error. -/
theorem write_error_not_sticky_cex :
    (objectWriter.Write cfgFailOnce wEmpty envN [7]).1.2.isSome = true ∧
    (objectWriter.Write cfgFailOnce
        (objectWriter.Write cfgFailOnce wEmpty envN [7]).2.1
        (objectWriter.Write cfgFailOnce wEmpty envN [7]).2.2 [8]).1.2 = none :=
  ⟨rfl, rfl⟩

/-- C4: with a configured compressor, the compressed output is stored — and the
entry's identifier wrapped as compressed(direct(cid)) — exactly when the output
is strictly shorter than the input; at equal or larger output length (including
exact equality) the original bytes are stored and the identifier stays
direct(cid) with no compressed wrapper.  The payload handed to the content
manager is observable through the manager-state transition. -/
theorem compression_shrink_or_skip (c : Compressor ε) (input output : List Nat)
    (hc : c input = Except.ok output) :
    (maybeCompressedContentBytes (some c) input =
       if output.length < input.length then Except.ok (output, true)
       else Except.ok (input, false)) ∧
    (∀ (cfg : Config σ κ ε) (w : objectWriter σ ε) (env : Env κ),
        w.compressor = some c → w.buffer = input →
        ((objectWriter.flushBuffer cfg w env).2.2.cmState =
            (cfg.writeContent env.cmState
              (if output.length < input.length then output else input) w.pfx).2) ∧
        (∀ cid k',
            cfg.writeContent env.cmState
              (if output.length < input.length then output else input) w.pfx =
              (Except.ok cid, k') →
            ((objectWriter.flushBuffer cfg w env).2.1.indirectIndex.getLastD default).object =
              (if output.length < input.length then Compressed (DirectObjectID cid)
               else DirectObjectID cid))) := by
  have hmc : maybeCompressedContentBytes (some c) input =
      if output.length < input.length then Except.ok (output, true)
      else Except.ok (input, false) := by
    simp only [maybeCompressedContentBytes, hc]
  refine ⟨hmc, ?_⟩
  intro cfg w env hcomp hbuf
  unfold objectWriter.flushBuffer
  dsimp only
  rw [hcomp, hbuf, hmc]
  by_cases hlt : output.length < input.length
  · rw [if_pos hlt]
    dsimp only
    rcases hcm : cfg.writeContent env.cmState output w.pfx with ⟨r, k2⟩
    rw [if_pos hlt, hcm]
    dsimp only
    constructor
    · rcases r with e | cid <;> rfl
    · intro cid k' hwc
      simp only [Prod.mk.injEq] at hwc
      rcases r with e | cid2
      · simp at hwc
      · simp only [Except.ok.injEq] at hwc
        dsimp only
        rw [set_concat_at_length, getLastD_append_single]
        simp [hwc.1, hlt]
  · rw [if_neg hlt]
    dsimp only
    rcases hcm : cfg.writeContent env.cmState input w.pfx with ⟨r, k2⟩
    rw [if_neg hlt, hcm]
    dsimp only
    constructor
    · rcases r with e | cid <;> rfl
    · intro cid k' hwc
      simp only [Prod.mk.injEq] at hwc
      rcases r with e | cid2
      · simp at hwc
      · simp only [Except.ok.injEq] at hwc
        dsimp only
        rw [set_concat_at_length, getLastD_append_single]
        simp [hwc.1, hlt]

/-- C4 witness: the identity compressor's output has exactly the input's
length, so the original bytes are stored and the identifier carries no
compressed wrapper. -/
theorem compression_shrink_or_skip_witness :
    maybeCompressedContentBytes (some (fun l => Except.ok l : Compressor Unit)) [5, 6] =
      Except.ok ([5, 6], false) ∧
    ((objectWriter.flushBuffer cfgOk wC4 envU).2.1.indirectIndex.getLastD default).object =
      DirectObjectID "c2" :=
  have h := compression_shrink_or_skip (σ := Unit) (κ := Unit)
    (fun l => Except.ok l) [5, 6] [5, 6] rfl
  ⟨by rw [h.1]; rfl, ((h.2 cfgOk wC4 envU rfl rfl).2 "c2" () rfl).trans (by rfl)⟩

/-- C2: `Result` finalization.  Writing `P` for the phase-one step — flush once
more exactly when the accumulation buffer is non-empty or no chunk has been
flushed yet — and assuming `P` did not fail: the flush (when it runs) adds
exactly one entry; a one-entry index makes `Result` return that entry's object
verbatim; with any other entry count, a successful `Result` returns
`IndirectObjectID r` where `r` is the successful result of the nested writer
through which the `kopia:indirect` index document was serialized. -/
theorem result_finalization (cfg : Config σ κ ε) (fuel : Nat) (w : objectWriter σ ε)
    (env : Env κ) (w₁ : objectWriter σ ε) (env₁ : Env κ)
    (hphase : (if 0 < w.buffer.length ∨ w.indirectIndex.length = 0
               then objectWriter.flushBuffer cfg w env
               else (none, w, env)) = (none, w₁, env₁)) :
    ((0 < w.buffer.length ∨ w.indirectIndex.length = 0) →
        w₁.indirectIndex.length = w.indirectIndex.length + 1) ∧
    (¬(0 < w.buffer.length ∨ w.indirectIndex.length = 0) → w₁ = w ∧ env₁ = env) ∧
    (w₁.indirectIndex.length = 1 →
        objectWriter.Result cfg fuel w env =
          (Except.ok (w₁.indirectIndex.headD default).object, w₁, env₁)) ∧
    (w₁.indirectIndex.length ≠ 1 →
        ∀ oid, (objectWriter.Result cfg (fuel + 1) w env).1 = Except.ok oid →
          ∃ r, oid = IndirectObjectID r ∧
            (objectWriter.Result cfg fuel
              (objectWriter.Write cfg
                { compressor := none, pfx := w₁.pfx, buffer := [], totalLength := 0,
                  currentPosition := 0, indirectIndex := [],
                  description := "LIST(" ++ w₁.description ++ ")",
                  splitterState := cfg.freshSplitter }
                { env₁ with events := env₁.events ++ [Event.alloc cfg.maxSegmentSize] }
                (encodeIndirectObject
                  { streamID := "kopia:indirect", entries := w₁.indirectIndex })).2.1
              (objectWriter.Write cfg
                { compressor := none, pfx := w₁.pfx, buffer := [], totalLength := 0,
                  currentPosition := 0, indirectIndex := [],
                  description := "LIST(" ++ w₁.description ++ ")",
                  splitterState := cfg.freshSplitter }
                { env₁ with events := env₁.events ++ [Event.alloc cfg.maxSegmentSize] }
                (encodeIndirectObject
                  { streamID := "kopia:indirect", entries := w₁.indirectIndex })).2.2).1 =
              Except.ok r) := by
  refine ⟨?_, ?_, ?_, ?_⟩
  · intro hcond
    rw [if_pos hcond] at hphase
    obtain ⟨oid, hw⟩ := flushBuffer_ok_cases cfg w env w₁ env₁ hphase
    rw [hw]
    simp
  · intro hcond
    rw [if_neg hcond] at hphase
    simp only [Prod.mk.injEq] at hphase
    exact ⟨hphase.2.1.symm, hphase.2.2.symm⟩
  · intro hlen
    unfold objectWriter.Result
    rw [hphase]
    dsimp only
    rw [if_pos hlen]
  · intro hlen oid hok
    have hres : objectWriter.Result cfg (fuel + 1) w env =
        objectWriter.Result cfg (fuel + 1) w env := rfl
    conv_lhs at hres => rw [objectWriter.Result]
    rw [hphase] at hres
    dsimp only at hres
    rw [if_neg hlen] at hres
    rw [← hres] at hok
    split at hok
    · simp at hok
    · rename_i n iw₁ env₃ heqW
      split at hok
      · simp at hok
      · rename_i r iw₂ env₄ heqR
        simp only [Except.ok.injEq] at hok
        refine ⟨r, hok.symm, ?_⟩
        rw [heqW]
        dsimp only
        rw [heqR]

/-- C2 witness: a fresh writer (empty buffer, no chunks) — phase one flushes the
single empty chunk, and `Result` returns that entry's object verbatim. -/
theorem result_finalization_witness :
    objectWriter.Result cfgOk 1 wEmpty envU =
      (Except.ok
          (((objectWriter.flushBuffer cfgOk wEmpty envU).2.1.indirectIndex.headD
            default).object),
        (objectWriter.flushBuffer cfgOk wEmpty envU).2.1,
        (objectWriter.flushBuffer cfgOk wEmpty envU).2.2) :=
  (result_finalization cfgOk 1 wEmpty envU
      (objectWriter.flushBuffer cfgOk wEmpty envU).2.1
      (objectWriter.flushBuffer cfgOk wEmpty envU).2.2 rfl).2.2.1 rfl

/-- C6: on the multi-entry path, `Result` behaves exactly as the composition
that builds a nested writer with no compressor and the outer writer's `pfx`,
serializes the index document carrying the stream sentinel `kopia:indirect`
through it, and runs the nested writer's `Close` on every return path — on the
error paths as well as on success, so the final event log always ends with the
nested writer's release-and-splitter-close pair. -/
theorem result_nested_writer (cfg : Config σ κ ε) (fuel : Nat) (w : objectWriter σ ε)
    (env : Env κ) (hbuf : w.buffer = []) (hlen : 2 ≤ w.indirectIndex.length) :
    (objectWriter.Result cfg (fuel + 1) w env =
      match objectWriter.Write cfg
          { compressor := none, pfx := w.pfx, buffer := [], totalLength := 0,
            currentPosition := 0, indirectIndex := [],
            description := "LIST(" ++ w.description ++ ")",
            splitterState := cfg.freshSplitter }
          { env with events := env.events ++ [Event.alloc cfg.maxSegmentSize] }
          (encodeIndirectObject { streamID := "kopia:indirect", entries := w.indirectIndex }) with
        | ((_, some e), iw₁, env₃) =>
          (Except.error (ResultErr.indexWrite e), w, objectWriter.Close iw₁ env₃)
        | ((_, none), iw₁, env₃) =>
          match objectWriter.Result cfg fuel iw₁ env₃ with
          | (Except.error e, iw₂, env₄) => (Except.error e, w, objectWriter.Close iw₂ env₄)
          | (Except.ok oid, iw₂, env₄) =>
            (Except.ok (IndirectObjectID oid), w, objectWriter.Close iw₂ env₄)) ∧
    (∃ t, (objectWriter.Result cfg (fuel + 1) w env).2.2.events =
        t ++ [Event.release, Event.splitterClose]) := by
  have hcond : ¬(0 < w.buffer.length ∨ w.indirectIndex.length = 0) := by
    rw [hbuf]
    simp only [List.length_nil, lt_self_iff_false, false_or]
    omega
  have hne : ¬(w.indirectIndex.length = 1) := by omega
  have hres : objectWriter.Result cfg (fuel + 1) w env =
      objectWriter.Result cfg (fuel + 1) w env := rfl
  conv_lhs at hres => rw [objectWriter.Result]
  rw [if_neg hcond] at hres
  dsimp only at hres
  rw [if_neg hne] at hres
  refine ⟨hres.symm, ?_⟩
  rw [← hres]
  split
  next n e iw₁ env₃ heqW => exact ⟨env₃.events, rfl⟩
  next n iw₁ env₃ heqW =>
    split
    next e iw₂ env₄ heqR => exact ⟨env₄.events, rfl⟩
    next oid iw₂ env₄ heqR => exact ⟨env₄.events, rfl⟩

/-- C6 witness: a writer with two flushed entries; whatever the nested run did,
the event log ends with the nested writer's release and splitter close. -/
theorem result_nested_writer_witness :
    2 ≤ wTwo.indirectIndex.length ∧
    ∃ t, (objectWriter.Result cfgOk (3 + 1) wTwo envU).2.2.events =
        t ++ [Event.release, Event.splitterClose] :=
  ⟨by decide, (result_nested_writer cfgOk 3 wTwo envU rfl (by decide)).2⟩

/-- On the per-byte loop's success path, contiguity of the index and the
cursor-equals-sum invariant are preserved, the covered-plus-buffered byte count
grows by exactly the input length, and the total-length counter is untouched. -/
theorem writeLoop_accounted (cfg : Config σ κ ε) :
    ∀ (data : List Nat) (w : objectWriter σ ε) (env : Env κ)
      (w' : objectWriter σ ε) (env' : Env κ),
      objectWriter.writeLoop cfg w env data = (none, w', env') →
      entriesContiguous 0 w.indirectIndex = true →
      w.currentPosition = sumLengths w.indirectIndex →
      entriesContiguous 0 w'.indirectIndex = true ∧
      w'.currentPosition = sumLengths w'.indirectIndex ∧
      w'.currentPosition + w'.buffer.length =
        w.currentPosition + w.buffer.length + data.length ∧
      w'.totalLength = w.totalLength := by
  intro data
  induction data with
  | nil =>
    intro w env w' env' h h1 h2
    simp only [objectWriter.writeLoop, Prod.mk.injEq] at h
    obtain ⟨hw, -⟩ := h.2
    subst hw
    exact ⟨h1, h2, by simp, rfl⟩
  | cons d rest ih =>
    intro w env w' env' h h1 h2
    unfold objectWriter.writeLoop at h
    dsimp only at h
    split at h
    · split at h
      · simp at h
      · rename_i wf envf heq
        obtain ⟨oid, hwf⟩ := flushBuffer_ok_cases cfg _ env wf envf heq
        have hcontig : entriesContiguous 0 wf.indirectIndex = true := by
          rw [hwf]
          dsimp only
          have := entriesContiguous_concat w.indirectIndex (w.buffer ++ [d]).length oid 0 h1
          rw [Nat.zero_add] at this
          rw [← h2] at this
          exact this
        have hsum : wf.currentPosition = sumLengths wf.indirectIndex := by
          rw [hwf]
          dsimp only
          rw [sumLengths_concat, h2]
        obtain ⟨c1, c2, c3, c4⟩ := ih wf envf w' env' h hcontig hsum
        refine ⟨c1, c2, ?_, ?_⟩
        · rw [c3, hwf]
          dsimp only
          simp only [List.length_append, List.length_cons, List.length_nil]
          omega
        · rw [c4, hwf]
    · rename_i hnosplit
      obtain ⟨c1, c2, c3, c4⟩ := ih _ env w' env' h h1 h2
      refine ⟨c1, c2, ?_, c4⟩
      rw [c3]
      simp only [List.length_append, List.length_cons, List.length_nil]
      omega

/-- On a successful `Write`, the invariants are preserved, and the total-length
counter accounts for exactly the accepted bytes. -/
theorem Write_accounted (cfg : Config σ κ ε) (w : objectWriter σ ε) (env : Env κ)
    (data : List Nat) (n : Nat) (w' : objectWriter σ ε) (env' : Env κ)
    (h : objectWriter.Write cfg w env data = ((n, none), w', env'))
    (h1 : entriesContiguous 0 w.indirectIndex = true)
    (h2 : w.currentPosition = sumLengths w.indirectIndex)
    (h3 : w.totalLength = w.currentPosition + w.buffer.length) :
    entriesContiguous 0 w'.indirectIndex = true ∧
    w'.currentPosition = sumLengths w'.indirectIndex ∧
    w'.totalLength = w'.currentPosition + w'.buffer.length ∧
    w'.totalLength = w.totalLength + data.length := by
  unfold objectWriter.Write at h
  dsimp only at h
  split at h
  · simp at h
  · rename_i wl envl heq
    simp only [Prod.mk.injEq] at h
    obtain ⟨-, hw, he⟩ := h
    subst hw
    obtain ⟨c1, c2, c3, c4⟩ := writeLoop_accounted cfg data _ env wl envl heq h1 h2
    dsimp only at c3 c4
    exact ⟨c1, c2, by omega, by omega⟩

/-- Over a successful sequence of writes, the invariants hold and the
total-length counter equals the initial counter plus all accepted bytes. -/
theorem runWrites_accounted (cfg : Config σ κ ε) :
    ∀ (bss : List (List Nat)) (w : objectWriter σ ε) (env : Env κ)
      (w' : objectWriter σ ε) (env' : Env κ),
      runWrites cfg bss w env = (none, w', env') →
      entriesContiguous 0 w.indirectIndex = true →
      w.currentPosition = sumLengths w.indirectIndex →
      w.totalLength = w.currentPosition + w.buffer.length →
      entriesContiguous 0 w'.indirectIndex = true ∧
      w'.currentPosition = sumLengths w'.indirectIndex ∧
      w'.totalLength = w'.currentPosition + w'.buffer.length ∧
      w'.totalLength = w.totalLength + (bss.map List.length).sum := by
  intro bss
  induction bss with
  | nil =>
    intro w env w' env' h h1 h2 h3
    simp only [runWrites, Prod.mk.injEq] at h
    obtain ⟨hw, -⟩ := h.2
    subst hw
    exact ⟨h1, h2, h3, by simp⟩
  | cons ds dss ih =>
    intro w env w' env' h h1 h2 h3
    unfold runWrites at h
    split at h
    · simp at h
    · rename_i n wm envm heq
      obtain ⟨c1, c2, c3, c4⟩ := Write_accounted cfg w env ds n wm envm heq h1 h2 h3
      obtain ⟨d1, d2, d3, d4⟩ := ih wm envm w' env' h c1 c2 c3
      refine ⟨d1, d2, d3, ?_⟩
      simp only [List.map_cons, List.sum_cons]
      omega

/-- A successful `Result` always has phase one succeed, and its returned writer
is the phase-one writer (the outer writer after the conditional final flush). -/
theorem Result_ok_phase (cfg : Config σ κ ε) (fuel : Nat) (w : objectWriter σ ε)
    (env : Env κ) (oid : ID) (w' : objectWriter σ ε) (env' : Env κ)
    (h : objectWriter.Result cfg fuel w env = (Except.ok oid, w', env')) :
    ∃ env₁, (if 0 < w.buffer.length ∨ w.indirectIndex.length = 0
             then objectWriter.flushBuffer cfg w env
             else (none, w, env)) = (none, w', env₁) := by
  have hres : objectWriter.Result cfg fuel w env = objectWriter.Result cfg fuel w env := rfl
  conv_lhs at hres => rw [objectWriter.Result]
  rw [← hres] at h
  split at h
  · simp at h
  · rename_i w₁ env₁ hphase
    split at h
    · simp only [Prod.mk.injEq, Except.ok.injEq] at h
      refine ⟨env₁, ?_⟩
      rw [hphase, h.2.1]
    · split at h
      · simp at h
      · dsimp only at h
        split at h
        · simp at h
        · rename_i n iw₁ env₃ heqW
          split at h
          · simp at h
          · simp only [Prod.mk.injEq, Except.ok.injEq] at h
            refine ⟨env₁, ?_⟩
            rw [hphase, h.2.1]

/-- C3: for every successful sequence of writes from a fresh writer followed by
a successful `Result`, the produced index entries are contiguous — the first
entry starts at 0 and each subsequent entry starts where the previous one ended
— and the entry lengths sum to the total number of bytes written. -/
theorem result_index_contiguous (cfg : Config σ κ ε) (fuel : Nat) (bss : List (List Nat))
    (w₀ : objectWriter σ ε) (env₀ : Env κ) (w : objectWriter σ ε) (env₁ : Env κ)
    (oid : ID) (w' : objectWriter σ ε) (env' : Env κ)
    (hb : w₀.buffer = []) (ht : w₀.totalLength = 0) (hc : w₀.currentPosition = 0)
    (hi : w₀.indirectIndex = [])
    (hrun : runWrites cfg bss w₀ env₀ = (none, w, env₁))
    (hres : objectWriter.Result cfg fuel w env₁ = (Except.ok oid, w', env')) :
    entriesContiguous 0 w'.indirectIndex = true ∧
    sumLengths w'.indirectIndex = (bss.map List.length).sum := by
  obtain ⟨c1, c2, c3, c4⟩ := runWrites_accounted cfg bss w₀ env₀ w env₁ hrun
    (by rw [hi]; rfl) (by rw [hc, hi]; rfl) (by simp [ht, hc, hb])
  rw [ht] at c4
  obtain ⟨env₂, hphase⟩ := Result_ok_phase cfg fuel w env₁ oid w' env' hres
  by_cases hcond : 0 < w.buffer.length ∨ w.indirectIndex.length = 0
  · rw [if_pos hcond] at hphase
    obtain ⟨o2, hw'⟩ := flushBuffer_ok_cases cfg w env₁ w' env₂ hphase
    constructor
    · rw [hw']
      dsimp only
      have := entriesContiguous_concat w.indirectIndex w.buffer.length o2 0 c1
      rw [Nat.zero_add, ← c2] at this
      exact this
    · rw [hw']
      dsimp only
      simp only [sumLengths_concat]
      omega
  · rw [if_neg hcond] at hphase
    simp only [Prod.mk.injEq] at hphase
    obtain ⟨-, hw, -⟩ := hphase
    subst hw
    push_neg at hcond
    have hbuf0 : w.buffer.length = 0 := by omega
    exact ⟨c1, by omega⟩

/-- C3 witness: two bytes written through a never-splitting configuration; the
final index is the single entry covering bytes 0..2. -/
theorem result_index_contiguous_witness :
    entriesContiguous 0
        (objectWriter.Result cfgOk 1 (runWrites cfgOk [[1, 2]] wEmpty envU).2.1
          (runWrites cfgOk [[1, 2]] wEmpty envU).2.2).2.1.indirectIndex = true ∧
    sumLengths
        (objectWriter.Result cfgOk 1 (runWrites cfgOk [[1, 2]] wEmpty envU).2.1
          (runWrites cfgOk [[1, 2]] wEmpty envU).2.2).2.1.indirectIndex = 2 :=
  result_index_contiguous cfgOk 1 [[1, 2]] wEmpty envU
    (runWrites cfgOk [[1, 2]] wEmpty envU).2.1
    (runWrites cfgOk [[1, 2]] wEmpty envU).2.2 "c2"
    (objectWriter.Result cfgOk 1 (runWrites cfgOk [[1, 2]] wEmpty envU).2.1
      (runWrites cfgOk [[1, 2]] wEmpty envU).2.2).2.1
    (objectWriter.Result cfgOk 1 (runWrites cfgOk [[1, 2]] wEmpty envU).2.1
      (runWrites cfgOk [[1, 2]] wEmpty envU).2.2).2.2
    rfl rfl rfl rfl rfl rfl

/-- With a value-deterministic content manager (the returned identifier depends
only on payload and content prefix, not on the manager's state), the outcome
and resulting writer of a flush do not depend on the environment. -/
theorem flushBuffer_env_indep (cfg : Config σ κ ε)
    (hDet : ∀ k k' b p, (cfg.writeContent k b p).1 = (cfg.writeContent k' b p).1)
    (w : objectWriter σ ε) (env env' : Env κ) :
    (objectWriter.flushBuffer cfg w env).1 = (objectWriter.flushBuffer cfg w env').1 ∧
    (objectWriter.flushBuffer cfg w env).2.1 = (objectWriter.flushBuffer cfg w env').2.1 := by
  unfold objectWriter.flushBuffer
  dsimp only
  rcases hm : maybeCompressedContentBytes w.compressor w.buffer with e | ⟨cb, isC⟩
  · exact ⟨rfl, rfl⟩
  · dsimp only
    have hd := hDet env.cmState env'.cmState cb w.pfx
    rcases h1 : cfg.writeContent env.cmState cb w.pfx with ⟨r1, k1⟩
    rcases h2 : cfg.writeContent env'.cmState cb w.pfx with ⟨r2, k2⟩
    rw [h1, h2] at hd
    dsimp only at hd
    subst hd
    rcases r1 with e | cid <;> exact ⟨rfl, rfl⟩

/-- Environment-independence of the per-byte loop under a value-deterministic
content manager. -/
theorem writeLoop_env_indep (cfg : Config σ κ ε)
    (hDet : ∀ k k' b p, (cfg.writeContent k b p).1 = (cfg.writeContent k' b p).1) :
    ∀ (data : List Nat) (w : objectWriter σ ε) (env env' : Env κ),
      (objectWriter.writeLoop cfg w env data).1 =
        (objectWriter.writeLoop cfg w env' data).1 ∧
      (objectWriter.writeLoop cfg w env data).2.1 =
        (objectWriter.writeLoop cfg w env' data).2.1 := by
  intro data
  induction data with
  | nil => intro w env env'; exact ⟨rfl, rfl⟩
  | cons d rest ih =>
    intro w env env'
    unfold objectWriter.writeLoop
    dsimp only
    rcases hsp : (cfg.shouldSplit w.splitterState d).1 with _ | _
    · rw [if_neg (by simp [hsp])]
      exact ih _ env env'
    · rw [if_pos (by simp [hsp])]
      have hf := flushBuffer_env_indep cfg hDet
        (⟨w.compressor, w.pfx, w.buffer ++ [d], w.totalLength, w.currentPosition,
          w.indirectIndex, w.description, (cfg.shouldSplit w.splitterState d).2⟩ :
          objectWriter σ ε) env env'
      rcases hf1 : objectWriter.flushBuffer cfg
          (⟨w.compressor, w.pfx, w.buffer ++ [d], w.totalLength, w.currentPosition,
            w.indirectIndex, w.description, (cfg.shouldSplit w.splitterState d).2⟩ :
            objectWriter σ ε) env with ⟨e1, wf1, ef1⟩
      rcases hf2 : objectWriter.flushBuffer cfg
          (⟨w.compressor, w.pfx, w.buffer ++ [d], w.totalLength, w.currentPosition,
            w.indirectIndex, w.description, (cfg.shouldSplit w.splitterState d).2⟩ :
            objectWriter σ ε) env' with ⟨e2, wf2, ef2⟩
      rw [hf1, hf2] at hf
      dsimp only at hf
      obtain ⟨he, hw⟩ := hf
      subst he
      subst hw
      rcases e1 with _ | e
      · exact ih _ ef1 ef2
      · exact ⟨rfl, rfl⟩

/-- Environment-independence of `Write` under a value-deterministic content
manager. -/
theorem Write_env_indep (cfg : Config σ κ ε)
    (hDet : ∀ k k' b p, (cfg.writeContent k b p).1 = (cfg.writeContent k' b p).1)
    (w : objectWriter σ ε) (env env' : Env κ) (data : List Nat) :
    (objectWriter.Write cfg w env data).1 = (objectWriter.Write cfg w env' data).1 ∧
    (objectWriter.Write cfg w env data).2.1 = (objectWriter.Write cfg w env' data).2.1 := by
  unfold objectWriter.Write
  dsimp only
  have hl := writeLoop_env_indep cfg hDet data
    (⟨w.compressor, w.pfx, w.buffer, w.totalLength + data.length, w.currentPosition,
      w.indirectIndex, w.description, w.splitterState⟩ : objectWriter σ ε) env env'
  rcases hl1 : objectWriter.writeLoop cfg
      (⟨w.compressor, w.pfx, w.buffer, w.totalLength + data.length, w.currentPosition,
        w.indirectIndex, w.description, w.splitterState⟩ : objectWriter σ ε) env data with
    ⟨e1, w1, ef1⟩
  rcases hl2 : objectWriter.writeLoop cfg
      (⟨w.compressor, w.pfx, w.buffer, w.totalLength + data.length, w.currentPosition,
        w.indirectIndex, w.description, w.splitterState⟩ : objectWriter σ ε) env' data with
    ⟨e2, w2, ef2⟩
  rw [hl1, hl2] at hl
  dsimp only at hl
  obtain ⟨he, hw⟩ := hl
  subst he
  subst hw
  rcases e1 with _ | e <;> exact ⟨rfl, rfl⟩

/-- Environment-independence of a whole write sequence under a
value-deterministic content manager. -/
theorem runWrites_env_indep (cfg : Config σ κ ε)
    (hDet : ∀ k k' b p, (cfg.writeContent k b p).1 = (cfg.writeContent k' b p).1) :
    ∀ (bss : List (List Nat)) (w : objectWriter σ ε) (env env' : Env κ),
      (runWrites cfg bss w env).1 = (runWrites cfg bss w env').1 ∧
      (runWrites cfg bss w env).2.1 = (runWrites cfg bss w env').2.1 := by
  intro bss
  induction bss with
  | nil => intro w env env'; exact ⟨rfl, rfl⟩
  | cons ds dss ih =>
    intro w env env'
    unfold runWrites
    have hw := Write_env_indep cfg hDet w env env' ds
    rcases h1 : objectWriter.Write cfg w env ds with ⟨⟨n1, e1⟩, w1, ef1⟩
    rcases h2 : objectWriter.Write cfg w env' ds with ⟨⟨n2, e2⟩, w2, ef2⟩
    rw [h1, h2] at hw
    dsimp only at hw
    obtain ⟨hpair, hwr⟩ := hw
    simp only [Prod.mk.injEq] at hpair
    obtain ⟨hn, he⟩ := hpair
    subst hn
    subst he
    subst hwr
    rcases e1 with _ | e
    · exact ih _ ef1 ef2
    · exact ⟨rfl, rfl⟩

/-- Environment-independence of `Result` under a value-deterministic content
manager: the returned identifier (or error) and the final writer state do not
depend on the environment. -/
theorem Result_env_indep (cfg : Config σ κ ε)
    (hDet : ∀ k k' b p, (cfg.writeContent k b p).1 = (cfg.writeContent k' b p).1) :
    ∀ (fuel : Nat) (w : objectWriter σ ε) (env env' : Env κ),
      (objectWriter.Result cfg fuel w env).1 = (objectWriter.Result cfg fuel w env').1 ∧
      (objectWriter.Result cfg fuel w env).2.1 =
        (objectWriter.Result cfg fuel w env').2.1 := by
  intro fuel
  induction fuel with
  | zero =>
    intro w env env'
    have hA : objectWriter.Result cfg 0 w env = objectWriter.Result cfg 0 w env := rfl
    conv_lhs at hA => rw [objectWriter.Result]
    have hB : objectWriter.Result cfg 0 w env' = objectWriter.Result cfg 0 w env' := rfl
    conv_lhs at hB => rw [objectWriter.Result]
    rw [← hA, ← hB]
    have hf := flushBuffer_env_indep cfg hDet w env env'
    by_cases hcond : 0 < w.buffer.length ∨ w.indirectIndex.length = 0
    · rw [if_pos hcond, if_pos hcond]
      rcases hf1 : objectWriter.flushBuffer cfg w env with ⟨e1, w1, ef1⟩
      rcases hf2 : objectWriter.flushBuffer cfg w env' with ⟨e2, w2, ef2⟩
      rw [hf1, hf2] at hf
      dsimp only at hf
      obtain ⟨he, hw⟩ := hf
      subst he
      subst hw
      rcases e1 with _ | e
      · dsimp only
        by_cases hlen : w1.indirectIndex.length = 1
        · rw [if_pos hlen, if_pos hlen]
          exact ⟨rfl, rfl⟩
        · rw [if_neg hlen, if_neg hlen]
          exact ⟨rfl, rfl⟩
      · exact ⟨rfl, rfl⟩
    · rw [if_neg hcond, if_neg hcond]
      dsimp only
      by_cases hlen : w.indirectIndex.length = 1
      · rw [if_pos hlen, if_pos hlen]
        exact ⟨rfl, rfl⟩
      · rw [if_neg hlen, if_neg hlen]
        exact ⟨rfl, rfl⟩
  | succ fuel ih =>
    intro w env env'
    have hA : objectWriter.Result cfg (fuel + 1) w env =
        objectWriter.Result cfg (fuel + 1) w env := rfl
    conv_lhs at hA => rw [objectWriter.Result]
    have hB : objectWriter.Result cfg (fuel + 1) w env' =
        objectWriter.Result cfg (fuel + 1) w env' := rfl
    conv_lhs at hB => rw [objectWriter.Result]
    dsimp only at hA hB
    rw [← hA, ← hB]
    have hf := flushBuffer_env_indep cfg hDet w env env'
    have hcore : ∀ (w1 : objectWriter σ ε) (ef1 ef2 : Env κ),
        ((if w1.indirectIndex.length = 1 then
            (Except.ok (w1.indirectIndex.headD default).object, w1, ef1)
          else
            match objectWriter.Write cfg
                { compressor := none, pfx := w1.pfx, buffer := [], totalLength := 0,
                  currentPosition := 0, indirectIndex := [],
                  description := "LIST(" ++ w1.description ++ ")",
                  splitterState := cfg.freshSplitter }
                { cmState := ef1.cmState,
                  events := ef1.events ++ [Event.alloc cfg.maxSegmentSize] }
                (encodeIndirectObject
                  { streamID := "kopia:indirect", entries := w1.indirectIndex }) with
            | ((_, some e), iw₁, env₃) =>
              (Except.error (ResultErr.indexWrite e), w1, objectWriter.Close iw₁ env₃)
            | ((_, none), iw₁, env₃) =>
              match objectWriter.Result cfg fuel iw₁ env₃ with
              | (Except.error e, iw₂, env₄) =>
                (Except.error e, w1, objectWriter.Close iw₂ env₄)
              | (Except.ok oid, iw₂, env₄) =>
                (Except.ok (IndirectObjectID oid), w1, objectWriter.Close iw₂ env₄)) :
            Except (ResultErr ε) ID × objectWriter σ ε × Env κ).1 =
          ((if w1.indirectIndex.length = 1 then
            (Except.ok (w1.indirectIndex.headD default).object, w1, ef2)
          else
            match objectWriter.Write cfg
                { compressor := none, pfx := w1.pfx, buffer := [], totalLength := 0,
                  currentPosition := 0, indirectIndex := [],
                  description := "LIST(" ++ w1.description ++ ")",
                  splitterState := cfg.freshSplitter }
                { cmState := ef2.cmState,
                  events := ef2.events ++ [Event.alloc cfg.maxSegmentSize] }
                (encodeIndirectObject
                  { streamID := "kopia:indirect", entries := w1.indirectIndex }) with
            | ((_, some e), iw₁, env₃) =>
              (Except.error (ResultErr.indexWrite e), w1, objectWriter.Close iw₁ env₃)
            | ((_, none), iw₁, env₃) =>
              match objectWriter.Result cfg fuel iw₁ env₃ with
            | (Except.error e, iw₂, env₄) =>
                (Except.error e, w1, objectWriter.Close iw₂ env₄)
              | (Except.ok oid, iw₂, env₄) =>
                (Except.ok (IndirectObjectID oid), w1, objectWriter.Close iw₂ env₄)) :
            Except (ResultErr ε) ID × objectWriter σ ε × Env κ).1 ∧
        ((if w1.indirectIndex.length = 1 then
            (Except.ok (w1.indirectIndex.headD default).object, w1, ef1)
          else
            match objectWriter.Write cfg
                { compressor := none, pfx := w1.pfx, buffer := [], totalLength := 0,
                  currentPosition := 0, indirectIndex := [],
                  description := "LIST(" ++ w1.description ++ ")",
                  splitterState := cfg.freshSplitter }
                { cmState := ef1.cmState,
                  events := ef1.events ++ [Event.alloc cfg.maxSegmentSize] }
                (encodeIndirectObject
                  { streamID := "kopia:indirect", entries := w1.indirectIndex }) with
            | ((_, some e), iw₁, env₃) =>
              (Except.error (ResultErr.indexWrite e), w1, objectWriter.Close iw₁ env₃)
            | ((_, none), iw₁, env₃) =>
              match objectWriter.Result cfg fuel iw₁ env₃ with
              | (Except.error e, iw₂, env₄) =>
                (Except.error e, w1, objectWriter.Close iw₂ env₄)
              | (Except.ok oid, iw₂, env₄) =>
                (Except.ok (IndirectObjectID oid), w1, objectWriter.Close iw₂ env₄)) :
            Except (ResultErr ε) ID × objectWriter σ ε × Env κ).2.1 =
          ((if w1.indirectIndex.length = 1 then
            (Except.ok (w1.indirectIndex.headD default).object, w1, ef2)
          else
            match objectWriter.Write cfg
                { compressor := none, pfx := w1.pfx, buffer := [], totalLength := 0,
                  currentPosition := 0, indirectIndex := [],
                  description := "LIST(" ++ w1.description ++ ")",
                  splitterState := cfg.freshSplitter }
                { cmState := ef2.cmState,
                  events := ef2.events ++ [Event.alloc cfg.maxSegmentSize] }
                (encodeIndirectObject
                  { streamID := "kopia:indirect", entries := w1.indirectIndex }) with
            | ((_, some e), iw₁, env₃) =>
              (Except.error (ResultErr.indexWrite e), w1, objectWriter.Close iw₁ env₃)
            | ((_, none), iw₁, env₃) =>
              match objectWriter.Result cfg fuel iw₁ env₃ with
              | (Except.error e, iw₂, env₄) =>
                (Except.error e, w1, objectWriter.Close iw₂ env₄)
              | (Except.ok oid, iw₂, env₄) =>
                (Except.ok (IndirectObjectID oid), w1, objectWriter.Close iw₂ env₄)) :
            Except (ResultErr ε) ID × objectWriter σ ε × Env κ).2.1 := by
      intro w1 ef1 ef2
      by_cases hlen : w1.indirectIndex.length = 1
      · rw [if_pos hlen, if_pos hlen]
        exact ⟨rfl, rfl⟩
      · rw [if_neg hlen, if_neg hlen]
        have hwi := Write_env_indep cfg hDet
          (⟨none, w1.pfx, [], 0, 0, [], "LIST(" ++ w1.description ++ ")",
            cfg.freshSplitter⟩ : objectWriter σ ε)
          (⟨ef1.cmState, ef1.events ++ [Event.alloc cfg.maxSegmentSize]⟩ : Env κ)
          (⟨ef2.cmState, ef2.events ++ [Event.alloc cfg.maxSegmentSize]⟩ : Env κ)
          (encodeIndirectObject { streamID := "kopia:indirect", entries := w1.indirectIndex })
        rcases hW1 : objectWriter.Write cfg
            (⟨none, w1.pfx, [], 0, 0, [], "LIST(" ++ w1.description ++ ")",
              cfg.freshSplitter⟩ : objectWriter σ ε)
            (⟨ef1.cmState, ef1.events ++ [Event.alloc cfg.maxSegmentSize]⟩ : Env κ)
            (encodeIndirectObject { streamID := "kopia:indirect", entries := w1.indirectIndex })
          with ⟨⟨n1, e1⟩, iw1, env3A⟩
        rcases hW2 : objectWriter.Write cfg
            (⟨none, w1.pfx, [], 0, 0, [], "LIST(" ++ w1.description ++ ")",
              cfg.freshSplitter⟩ : objectWriter σ ε)
            (⟨ef2.cmState, ef2.events ++ [Event.alloc cfg.maxSegmentSize]⟩ : Env κ)
            (encodeIndirectObject { streamID := "kopia:indirect", entries := w1.indirectIndex })
          with ⟨⟨n2, e2⟩, iw2, env3B⟩
        rw [hW1, hW2] at hwi
        dsimp only at hwi
        obtain ⟨hpair, hwr⟩ := hwi
        simp only [Prod.mk.injEq] at hpair
        obtain ⟨hn, he⟩ := hpair
        subst hn
        subst he
        subst hwr
        rcases e1 with _ | e
        · dsimp only
          have hr := ih iw1 env3A env3B
          rcases hR1 : objectWriter.Result cfg fuel iw1 env3A with ⟨r1, iw2A, env4A⟩
          rcases hR2 : objectWriter.Result cfg fuel iw1 env3B with ⟨r2, iw2B, env4B⟩
          rw [hR1, hR2] at hr
          dsimp only at hr
          obtain ⟨hre, hrw⟩ := hr
          subst hre
          subst hrw
          rcases r1 with e | oid <;> exact ⟨rfl, rfl⟩
        · exact ⟨rfl, rfl⟩
    by_cases hcond : 0 < w.buffer.length ∨ w.indirectIndex.length = 0
    · rw [if_pos hcond, if_pos hcond]
      rcases hf1 : objectWriter.flushBuffer cfg w env with ⟨e1, w1, ef1⟩
      rcases hf2 : objectWriter.flushBuffer cfg w env' with ⟨e2, w2, ef2⟩
      rw [hf1, hf2] at hf
      dsimp only at hf
      obtain ⟨he, hw⟩ := hf
      subst he
      subst hw
      rcases e1 with _ | e
      · exact hcore w1 ef1 ef2
      · exact ⟨rfl, rfl⟩
    · rw [if_neg hcond, if_neg hcond]
      exact hcore w env env'

/-- C7: two byte-identical input streams written through writers constructed
with identical configuration (same splitter behavior via `cfg`, same compressor
and `pfx` via the shared initial writer state), against a content manager whose
returned identifier depends only on payload and prefix (deduplication), produce
the same write outcomes, the same writer state — hence the same sequence of
`(start, length, object)` index entries — and the same final ObjectID from
`Result`, regardless of the surrounding environment. -/
theorem identical_streams_identical_results (cfg : Config σ κ ε)
    (hDet : ∀ k k' b p, (cfg.writeContent k b p).1 = (cfg.writeContent k' b p).1)
    (fuel : Nat) (bss : List (List Nat)) (w : objectWriter σ ε) (env env' : Env κ) :
    (runWrites cfg bss w env).1 = (runWrites cfg bss w env').1 ∧
    (runWrites cfg bss w env).2.1 = (runWrites cfg bss w env').2.1 ∧
    (objectWriter.Result cfg fuel (runWrites cfg bss w env).2.1
        (runWrites cfg bss w env).2.2).1 =
      (objectWriter.Result cfg fuel (runWrites cfg bss w env').2.1
        (runWrites cfg bss w env').2.2).1 ∧
    (objectWriter.Result cfg fuel (runWrites cfg bss w env).2.1
        (runWrites cfg bss w env).2.2).2.1.indirectIndex =
      (objectWriter.Result cfg fuel (runWrites cfg bss w env').2.1
        (runWrites cfg bss w env').2.2).2.1.indirectIndex := by
  obtain ⟨h1, h2⟩ := runWrites_env_indep cfg hDet bss w env env'
  refine ⟨h1, h2, ?_, ?_⟩
  · rw [← h2]
    exact (Result_env_indep cfg hDet fuel _ _ _).1
  · rw [← h2]
    exact congrArg objectWriter.indirectIndex (Result_env_indep cfg hDet fuel _ _ _).2

/-- C7 witness: the same three-byte stream fed through the same configuration
in two different environments yields identical outcomes, writer states, final
identifiers and index entries. -/
theorem identical_streams_identical_results_witness :
    (runWrites cfgOk [[1, 2, 3]] wEmpty envU).1 = (runWrites cfgOk [[1, 2, 3]] wEmpty envU2).1 ∧
    (runWrites cfgOk [[1, 2, 3]] wEmpty envU).2.1 =
      (runWrites cfgOk [[1, 2, 3]] wEmpty envU2).2.1 ∧
    (objectWriter.Result cfgOk 2 (runWrites cfgOk [[1, 2, 3]] wEmpty envU).2.1
        (runWrites cfgOk [[1, 2, 3]] wEmpty envU).2.2).1 =
      (objectWriter.Result cfgOk 2 (runWrites cfgOk [[1, 2, 3]] wEmpty envU2).2.1
        (runWrites cfgOk [[1, 2, 3]] wEmpty envU2).2.2).1 ∧
    (objectWriter.Result cfgOk 2 (runWrites cfgOk [[1, 2, 3]] wEmpty envU).2.1
        (runWrites cfgOk [[1, 2, 3]] wEmpty envU).2.2).2.1.indirectIndex =
      (objectWriter.Result cfgOk 2 (runWrites cfgOk [[1, 2, 3]] wEmpty envU2).2.1
        (runWrites cfgOk [[1, 2, 3]] wEmpty envU2).2.2).2.1.indirectIndex :=
  identical_streams_identical_results cfgOk (fun _ _ _ _ => rfl) 2 [[1, 2, 3]]
    wEmpty envU envU2
